import Mathlib

/-!
Verification of the PokeExplore habitat classifier, spawn pool selector,
offline cache and AR catch mini-game against their specification.

The definitions below are a shallow embedding of the TypeScript sources:
  * src/utils/habitatDetection.ts   (detectHabitat)
  * src/screens/HuntScreen.tsx      (spawnPokemon)
  * src/services/pokeapi.ts         (getPokemonByHabitat, contract only)
  * the cache service               (getCachedData / evictOldCacheEntries /
                                     setCachedData)
  * src/screens/PokemonCatchScreen.tsx (throwPokeball)
Network effects are modelled by passing each upstream response as an
explicit value; `Math.random()` is modelled by an explicit stream of draws.
-/

namespace PokeExplore

/-! ### String helpers

`strIncludes s pat` models JavaScript `s.includes(pat)` (substring test;
the empty pattern is always included).  `toLowerStr` models
`String.prototype.toLowerCase()`. -/

/-- Is `p` a prefix of `s` (on character lists)? -/
def isPrefixL : List Char → List Char → Bool
  | [], _ => true
  | _ :: _, [] => false
  | a :: as, b :: bs => a == b && isPrefixL as bs

/-- Does `pat` occur as a contiguous substring of `s` (on character lists)? -/
def isInfixL (pat : List Char) : List Char → Bool
  | [] => isPrefixL pat []
  | b :: bs => isPrefixL pat (b :: bs) || isInfixL pat bs

/-- JavaScript `s.includes(pat)`. -/
def strIncludes (s pat : String) : Bool :=
  isInfixL pat.data s.data

/-- JavaScript `s.toLowerCase()` (all texts involved are ASCII). -/
def toLowerStr (s : String) : String :=
  ⟨s.data.map Char.toLower⟩

/-! ### Data model of the two upstream HTTP responses

A geocoding result carries a formatted address and a list of type tags;
a places result carries a name and a list of type tags
(habitatDetection.ts lines 64-88). -/

/-- One result object of the reverse-geocoding response. -/
structure GeoResult where
  formatted_address : String
  types : List String
deriving DecidableEq, Repr

/-- One result object of the nearby-places response. -/
structure PlaceResult where
  name : String
  types : List String
deriving DecidableEq, Repr

/-- Outcome of one upstream call: failure (non-success HTTP response or a
thrown network error) or success with a result list. -/
inductive FetchResult (α : Type) where
  | failure : FetchResult α
  | success (results : List α) : FetchResult α
deriving DecidableEq, Repr

/-- The habitat enumeration `DetectedHabitat` of habitatDetection.ts
(`waters-edge` and `rough-terrain` are not Lean identifiers, hence the
camel-case constructor names). -/
inductive DetectedHabitat where
  | urban | grassland | forest | cave | mountain
  | roughTerrain | watersEdge | sea | rare
deriving DecidableEq, Repr

/-! ### The classification rules (habitatDetection.ts lines 60-166)

`placesData` is `none` when the places call failed (the variable stays
`null` in the source) and `some rs` when it succeeded with results `rs`. -/

/-- `allTexts`: lowercased place names first, then lowercased formatted
addresses (lines 64-88). -/
def allTexts (placesData : Option (List PlaceResult)) (geo : List GeoResult) :
    List String :=
  (placesData.getD []).map (fun p => toLowerStr p.name) ++
    geo.map (fun g => toLowerStr g.formatted_address)

/-- `allTypes`: place type tags first, then geocoding type tags. -/
def allTypes (placesData : Option (List PlaceResult)) (geo : List GeoResult) :
    List String :=
  (placesData.getD []).flatMap (fun p => p.types) ++
    geo.flatMap (fun g => g.types)

/-- `combinedText = allTexts.join(' ')` (line 90). -/
def combinedText (placesData : Option (List PlaceResult))
    (geo : List GeoResult) : String :=
  String.intercalate " " (allTexts placesData geo)

def waterKeywords : List String :=
  ["beach", "coast", "coastal", "shore", "seashore", "harbor", "harbour",
   "port", "lake", "river", "ocean", "sea", "bay", "waterfront", "marina",
   "pier", "wharf", "waterfall", "falls", "stream", "creek"]

def mountainKeywords : List String :=
  ["mountain", "hill", "peak", "ridge", "summit", "mount", "volcano",
   "cliff", "canyon", "valley", "highland", "range", "elevation", "altitude"]

def forestKeywords : List String :=
  ["park", "forest", "wood", "woods", "grove", "nature", "reserve",
   "wildlife", "national park", "state park", "trail", "hiking",
   "wilderness", "conservation"]

def urbanKeywords : List String :=
  ["city", "town", "urban", "downtown", "metropolitan", "municipality",
   "street", "avenue", "boulevard"]

/-- `keywords.some(k => combinedText.includes(k))`. -/
def hasKeyword (text : String) (kws : List String) : Bool :=
  kws.any (fun k => strIncludes text k)

def hasWaterKeyword (t : String) : Bool := hasKeyword t waterKeywords

/-- Line 98: `natural_feature` tag together with one of five water words. -/
def hasWaterType (tys : List String) (t : String) : Bool :=
  tys.contains "natural_feature" &&
    (strIncludes t "beach" || strIncludes t "coast" || strIncludes t "water"
      || strIncludes t "lake" || strIncludes t "river")

def hasMountainKeyword (t : String) : Bool := hasKeyword t mountainKeywords

/-- Line 112: `natural_feature` tag together with one of four mountain words. -/
def hasMountainType (tys : List String) (t : String) : Bool :=
  tys.contains "natural_feature" &&
    (strIncludes t "mountain" || strIncludes t "hill"
      || strIncludes t "peak" || strIncludes t "mount")

/-- Line 116: `allTypes.includes('natural_feature') && placesData?.results?.length > 0`.
When `placesData` is `null` the optional chain yields `undefined > 0 = false`. -/
def hasNaturalFeature (tys : List String)
    (placesData : Option (List PlaceResult)) : Bool :=
  tys.contains "natural_feature" &&
    (match placesData with
     | some rs => decide (0 < rs.length)
     | none => false)

def hasForestKeyword (t : String) : Bool := hasKeyword t forestKeywords

/-- Line 131: `park` tag, or `natural_feature` tag with the word "park". -/
def hasParkType (tys : List String) (t : String) : Bool :=
  tys.contains "park" ||
    (tys.contains "natural_feature" && strIncludes t "park")

def hasUrbanKeyword (t : String) : Bool := hasKeyword t urbanKeywords

/-- Line 147: `locality` or `administrative_area_level_1` tag. -/
def isAdministrativeArea (tys : List String) : Bool :=
  tys.contains "locality" || tys.contains "administrative_area_level_1"

/-- Line 148: no `natural_feature` tag, no `park` tag, and
`!placesData?.results?.length` (true when the places call failed or
returned zero results). -/
def hasNoNaturalFeatures (tys : List String)
    (placesData : Option (List PlaceResult)) : Bool :=
  !tys.contains "natural_feature" && !tys.contains "park" &&
    (placesData.getD []).isEmpty

/-- The waters-edge rule (lines 96-107). -/
def watersRule (placesData : Option (List PlaceResult))
    (geo : List GeoResult) : Bool :=
  hasWaterKeyword (combinedText placesData geo) ||
    hasWaterType (allTypes placesData geo) (combinedText placesData geo)

/-- The mountain rule (lines 110-125). -/
def mountainRule (placesData : Option (List PlaceResult))
    (geo : List GeoResult) : Bool :=
  hasMountainKeyword (combinedText placesData geo) ||
    hasMountainType (allTypes placesData geo) (combinedText placesData geo) ||
    (hasNaturalFeature (allTypes placesData geo) placesData &&
      !hasWaterKeyword (combinedText placesData geo))

/-- The forest rule (lines 128-138). -/
def forestRule (placesData : Option (List PlaceResult))
    (geo : List GeoResult) : Bool :=
  hasForestKeyword (combinedText placesData geo) ||
    hasParkType (allTypes placesData geo) (combinedText placesData geo)

/-- The urban rule (lines 145-157). -/
def urbanRule (placesData : Option (List PlaceResult))
    (geo : List GeoResult) : Bool :=
  hasUrbanKeyword (combinedText placesData geo) &&
    isAdministrativeArea (allTypes placesData geo) &&
    hasNoNaturalFeatures (allTypes placesData geo) placesData

/-- Rule evaluation in source order, first match wins (lines 96-166);
the trailing `return 'urban'` of the source is dead code after the
grassland return and does not appear. -/
def classify (placesData : Option (List PlaceResult))
    (geo : List GeoResult) : DetectedHabitat :=
  if watersRule placesData geo then .watersEdge
  else if mountainRule placesData geo then .mountain
  else if forestRule placesData geo then .forest
  else if urbanRule placesData geo then .urban
  else .grassland

/-- The two outbound calls `detectHabitat` can make. -/
inductive ApiCall where
  | geocode | places
deriving DecidableEq, Repr

/-- The `placesData` variable after step 2 (lines 47-58): `null` when the
places call failed, the parsed body when it succeeded. -/
def placesDataOf : FetchResult PlaceResult → Option (List PlaceResult)
  | .failure => none
  | .success rs => some rs

/-- `detectHabitat`, instrumented with the list of upstream calls it makes.
A failed geocode (non-ok response, line 40, or a thrown error caught at
line 169) returns `grassland` before the places call is reached; a failed
places call leaves `placesData` null and classification continues. -/
def detectHabitatRun (geoR : FetchResult GeoResult)
    (placesR : FetchResult PlaceResult) : DetectedHabitat × List ApiCall :=
  match geoR with
  | .failure => (.grassland, [.geocode])
  | .success geo => (classify (placesDataOf placesR) geo, [.geocode, .places])

/-- The value `detectHabitat` returns to its caller. -/
def detectHabitat (geoR : FetchResult GeoResult)
    (placesR : FetchResult PlaceResult) : DetectedHabitat :=
  (detectHabitatRun geoR placesR).1

/-- C1: for every pair of upstream outcomes, `detectHabitat` returns exactly
one value from {urban, grassland, forest, mountain, waters-edge} (and, being
a total function of the two responses, never throws); the enum members
`cave`, `sea`, `rare` (and `rough-terrain`) are never produced. -/
theorem detectHabitat_range (geoR : FetchResult GeoResult)
    (placesR : FetchResult PlaceResult) :
    detectHabitat geoR placesR = .urban ∨
    detectHabitat geoR placesR = .grassland ∨
    detectHabitat geoR placesR = .forest ∨
    detectHabitat geoR placesR = .mountain ∨
    detectHabitat geoR placesR = .watersEdge := by
  cases geoR with
  | failure => exact Or.inr (Or.inl rfl)
  | success geo =>
    simp only [detectHabitat, detectHabitatRun, classify]
    split_ifs <;> simp

/-- C2: if the geocoding call fails (non-success response or thrown network
error), `detectHabitat` returns `grassland` immediately, whatever the places
call would have returned. -/
theorem detectHabitat_geocodeFailure (placesR : FetchResult PlaceResult) :
    detectHabitat .failure placesR = .grassland := rfl

/-- C3 (counterexample): a successful pair on which the waters-edge rule does
not match, no mountain keyword occurs, and the natural-feature-plus-mountain-
word condition fails, where `detectHabitat` returns `mountain` although no
places result is tagged `natural_feature` (the tag comes from the geocoding
result; the places result is tagged only `park`). -/
theorem mountainFallback_counterexample :
    watersRule (some [⟨"Plaza", ["park"]⟩]) [⟨"Somewhere", ["natural_feature"]⟩] = false ∧
    hasMountainKeyword (combinedText (some [⟨"Plaza", ["park"]⟩])
      [⟨"Somewhere", ["natural_feature"]⟩]) = false ∧
    hasMountainType (allTypes (some [⟨"Plaza", ["park"]⟩]) [⟨"Somewhere", ["natural_feature"]⟩])
      (combinedText (some [⟨"Plaza", ["park"]⟩]) [⟨"Somewhere", ["natural_feature"]⟩]) = false ∧
    detectHabitat (.success [⟨"Somewhere", ["natural_feature"]⟩])
      (.success [⟨"Plaza", ["park"]⟩]) = .mountain ∧
    ([⟨"Plaza", ["park"]⟩] : List PlaceResult).all
      (fun r => !r.types.contains "natural_feature") = true := by
  decide

/-- C3 (amended): under the claim's premises, `detectHabitat` returns
`mountain` if and only if the combined tag set (places and geocoding tags
together) contains `natural_feature` AND the places query returned at least
one result (of any tag). -/
theorem mountainFallback_amended (geo : List GeoResult) (rs : List PlaceResult)
    (hw : watersRule (some rs) geo = false)
    (hk : hasMountainKeyword (combinedText (some rs) geo) = false)
    (ht : hasMountainType (allTypes (some rs) geo) (combinedText (some rs) geo) = false) :
    detectHabitat (.success geo) (.success rs) = .mountain ↔
      (allTypes (some rs) geo).contains "natural_feature" = true ∧ rs ≠ [] := by
  have hwk : hasWaterKeyword (combinedText (some rs) geo) = false :=
    (Bool.or_eq_false_iff.mp hw).1
  have key : hasNaturalFeature (allTypes (some rs) geo) (some rs) = true ↔
      ((allTypes (some rs) geo).contains "natural_feature" = true ∧ rs ≠ []) := by
    simp [hasNaturalFeature, List.length_pos]
  cases hnf : hasNaturalFeature (allTypes (some rs) geo) (some rs) with
  | true =>
    have hmr : mountainRule (some rs) geo = true := by
      simp [mountainRule, hnf, hwk]
    have hres : detectHabitat (.success geo) (.success rs) = .mountain := by
      simp [detectHabitat, detectHabitatRun, placesDataOf, classify, hw, hmr]
    rw [hres]
    simpa using key.mp hnf
  | false =>
    have hmr : mountainRule (some rs) geo = false := by
      simp [mountainRule, hk, ht, hnf]
    have hres : detectHabitat (.success geo) (.success rs) ≠ .mountain := by
      simp only [detectHabitat, detectHabitatRun, placesDataOf, classify, hw, hmr,
        Bool.false_eq_true, if_false]
      split_ifs <;> simp
    constructor
    · intro h; exact absurd h hres
    · intro h; exact absurd (key.mpr h) (by simp [hnf])

/-- C4 (counterexample): on the geocoding-failure path the places client is
never invoked (while the claim demands both clients be called exactly once
on every path). -/
theorem apiCalls_counterexample :
    (detectHabitatRun .failure (.success [])).2.count .places = 0 ∧
    (detectHabitatRun .failure (.success [])).2.count .geocode = 1 := by
  decide

/-- C4 (amended): the geocoding client is invoked exactly once on every call;
the places client is invoked exactly once when the geocoding call succeeds
and zero times when it fails; no call is ever retried (no client is invoked
more than once). -/
theorem apiCalls_once (geoR : FetchResult GeoResult)
    (placesR : FetchResult PlaceResult) :
    (detectHabitatRun geoR placesR).2.count .geocode = 1 ∧
    (detectHabitatRun geoR placesR).2.count .places =
      (match geoR with | .failure => 0 | .success _ => 1) := by
  cases geoR <;> exact ⟨rfl, rfl⟩

/-- C5: whenever the combined lowercase text contains both a water keyword
and a mountain keyword, `detectHabitat` returns `waters-edge` and never
`mountain` — the waters-edge rule is evaluated strictly first. -/
theorem water_priority (geo : List GeoResult) (placesR : FetchResult PlaceResult)
    (hw : hasWaterKeyword (combinedText (placesDataOf placesR) geo) = true)
    (_hm : hasMountainKeyword (combinedText (placesDataOf placesR) geo) = true) :
    detectHabitat (.success geo) placesR = .watersEdge ∧
    detectHabitat (.success geo) placesR ≠ .mountain := by
  have hrule : watersRule (placesDataOf placesR) geo = true := by
    simp [watersRule, hw]
  simp [detectHabitat, detectHabitatRun, classify, hrule]

/-- C6: when no earlier rule matches, `detectHabitat` returns `urban` iff the
combined text contains an urban keyword, the tag set contains `locality` or
`administrative_area_level_1`, the tag set contains neither `natural_feature`
nor `park`, and the places query returned zero results; and any nonempty
places result list forces a non-urban outcome. -/
theorem urban_gating (geo : List GeoResult) (rs : List PlaceResult) :
    ((watersRule (some rs) geo = false ∧ mountainRule (some rs) geo = false ∧
      forestRule (some rs) geo = false) →
      (detectHabitat (.success geo) (.success rs) = .urban ↔
        hasUrbanKeyword (combinedText (some rs) geo) = true ∧
        isAdministrativeArea (allTypes (some rs) geo) = true ∧
        (allTypes (some rs) geo).contains "natural_feature" = false ∧
        (allTypes (some rs) geo).contains "park" = false ∧
        rs = [])) ∧
    (rs ≠ [] → detectHabitat (.success geo) (.success rs) ≠ .urban) := by
  have key : urbanRule (some rs) geo = true ↔
      (hasUrbanKeyword (combinedText (some rs) geo) = true ∧
       isAdministrativeArea (allTypes (some rs) geo) = true ∧
       (allTypes (some rs) geo).contains "natural_feature" = false ∧
       (allTypes (some rs) geo).contains "park" = false ∧ rs = []) := by
    simp [urbanRule, hasNoNaturalFeatures, and_assoc]
  constructor
  · rintro ⟨h1, h2, h3⟩
    cases hur : urbanRule (some rs) geo with
    | true =>
      have hres : detectHabitat (.success geo) (.success rs) = .urban := by
        simp [detectHabitat, detectHabitatRun, placesDataOf, classify, h1, h2, h3, hur]
      rw [hres]
      simpa using key.mp hur
    | false =>
      have hres : detectHabitat (.success geo) (.success rs) ≠ .urban := by
        simp [detectHabitat, detectHabitatRun, placesDataOf, classify, h1, h2, h3, hur]
      constructor
      · intro h; exact absurd h hres
      · intro h; exact absurd (key.mpr h) (by simp [hur])
  · intro hne
    have hnnf : hasNoNaturalFeatures (allTypes (some rs) geo) (some rs) = false := by
      simp [hasNoNaturalFeatures, hne]
    have hur : urbanRule (some rs) geo = false := by
      simp [urbanRule, hnnf]
    simp only [detectHabitat, detectHabitatRun, placesDataOf, classify]
    split_ifs with hsp1 hsp2 hsp3 hsp4 <;> simp
    exact absurd hsp4 (by simp [hur])

/-- C7: a failed places call is classified exactly like a successful places
call with zero results; in particular a successful geocode whose address
contains "National Forest Park Trail" still yields `forest` when the places
call fails. -/
theorem places_failure_tolerance :
    (∀ geo : List GeoResult,
      detectHabitat (.success geo) .failure =
        detectHabitat (.success geo) (.success [])) ∧
    detectHabitat (.success [⟨"National Forest Park Trail", []⟩]) .failure = .forest :=
  ⟨fun _ => rfl, by decide⟩

/-- Witness for the amended C3 at the spec's "Echo Point" example. -/
theorem mountainFallback_amended_witness :
    detectHabitat (.success []) (.success [⟨"Echo Point", ["natural_feature"]⟩]) = .mountain :=
  (mountainFallback_amended [] [⟨"Echo Point", ["natural_feature"]⟩]
    (by decide) (by decide) (by decide)).mpr ⟨by decide, by decide⟩

/-- Witness for C5 at the spec's "Mountain View Beach Road" example. -/
theorem water_priority_witness :
    detectHabitat (.success [⟨"Mountain View Beach Road", []⟩]) (.success []) = .watersEdge ∧
    detectHabitat (.success [⟨"Mountain View Beach Road", []⟩]) (.success []) ≠ .mountain :=
  water_priority [⟨"Mountain View Beach Road", []⟩] (.success []) (by decide) (by decide)

/-- Witness for C6 at the spec's "123 Main Street, Springfield" example. -/
theorem urban_gating_witness :
    detectHabitat (.success [⟨"123 Main Street, Springfield", ["locality"]⟩])
      (.success []) = .urban :=
  ((urban_gating [⟨"123 Main Street, Springfield", ["locality"]⟩] []).1
    ⟨by decide, by decide, by decide⟩).mpr
    ⟨by decide, by decide, by decide, by decide, rfl⟩

/-! ### Spawn pool selector (HuntScreen.tsx lines 215-257)

Creatures are modelled by their numeric ids (`getPokemon(id)` fetches the
creature with that id, so the id determines the list element). -/

/-- `MAX_POKEMON` (HuntScreen.tsx line 37). -/
def MAX_POKEMON : Nat := 10

/-- One draw `Math.floor(Math.random() * 1025) + 1`: with
`Math.random() ∈ [0,1)` the floored product is a value of `Fin 1025`, so
the id lies in 1..1025.  A run is modelled by the stream `rand` of
successive draws. -/
def randomId (rand : Nat → Fin 1025) (i : Nat) : Nat := (rand i).val + 1

/-- The fill loop `while (randomIds.size < needed) randomIds.add(...)`
(HuntScreen.tsx lines 235-238 and 250-253).  A JavaScript `Set` keeps
insertion order and deduplicates, and `Array.from` yields that order.
`fuel` bounds the iterations; every terminating execution of the source
loop is reproduced by a large enough fuel. -/
def collectRandomIds (rand : Nat → Fin 1025) (needed : Nat) :
    Nat → Nat → List Nat → List Nat
  | 0, _, acc => acc.reverse
  | fuel + 1, i, acc =>
    if needed ≤ acc.length then acc.reverse
    else if acc.contains (randomId rand i) then
      collectRandomIds rand needed fuel (i + 1) acc
    else
      collectRandomIds rand needed fuel (i + 1) (randomId rand i :: acc)

/-- `spawnPokemon` on the id level.  `habitatPool` is the outcome of
`getPokemonByHabitat(habitat)` (`.error` when it threw); on success a short
pool is topped up with random ids and the list sliced to `MAX_POKEMON`
(lines 230-246); on failure the whole list is random (lines 247-256).
Marker placement and shiny rolls further down do not change the list. -/
def spawnPokemon (habitatPool : Except Unit (List Nat))
    (rand : Nat → Fin 1025) (fuel : Nat) : List Nat :=
  match habitatPool with
  | .ok pool =>
    let pokemonList :=
      if pool.length < MAX_POKEMON then
        pool ++ collectRandomIds rand (MAX_POKEMON - pool.length) fuel 0 []
      else pool
    pokemonList.take MAX_POKEMON
  | .error _ => collectRandomIds rand MAX_POKEMON fuel 0 []

/-- Every id the fill loop collects lies in 1..1025 (given that the
accumulator does). -/
lemma collectRandomIds_mem_bounds (rand : Nat → Fin 1025) (needed : Nat) :
    ∀ (fuel i : Nat) (acc : List Nat),
      (∀ id ∈ acc, 1 ≤ id ∧ id ≤ 1025) →
      ∀ id ∈ collectRandomIds rand needed fuel i acc, 1 ≤ id ∧ id ≤ 1025 := by
  intro fuel
  induction fuel with
  | zero =>
    intro i acc hacc id hid
    exact hacc id (List.mem_reverse.mp hid)
  | succ fuel ih =>
    intro i acc hacc id hid
    unfold collectRandomIds at hid
    split_ifs at hid with h1 h2
    · exact hacc id (List.mem_reverse.mp hid)
    · exact ih (i + 1) acc hacc id hid
    · refine ih (i + 1) _ ?_ id hid
      intro x hx
      rcases List.mem_cons.mp hx with hx | hx
      · subst hx
        exact ⟨Nat.le_add_left 1 _, Nat.succ_le_of_lt (rand i).isLt⟩
      · exact hacc x hx

/-- The fill loop never collects more than `needed` ids (given that the
accumulator is not already longer). -/
lemma collectRandomIds_length_le (rand : Nat → Fin 1025) (needed : Nat) :
    ∀ (fuel i : Nat) (acc : List Nat), acc.length ≤ needed →
      (collectRandomIds rand needed fuel i acc).length ≤ needed := by
  intro fuel
  induction fuel with
  | zero =>
    intro i acc hacc
    unfold collectRandomIds
    simpa using hacc
  | succ fuel ih =>
    intro i acc hacc
    unfold collectRandomIds
    split_ifs with h1 h2
    · simpa using hacc
    · exact ih (i + 1) acc hacc
    · exact ih (i + 1) _ (by simpa using Nat.lt_of_not_le h1)

/-- C8: the spawn selection returns at most 10 creatures, and everything
beyond the habitat pool's own contribution (the whole list when the lookup
failed) is a randomly drawn id from the full valid range 1..1025. -/
theorem spawnPokemon_bounds (habitatPool : Except Unit (List Nat))
    (rand : Nat → Fin 1025) (fuel : Nat) :
    (spawnPokemon habitatPool rand fuel).length ≤ 10 ∧
    ∀ id ∈ (spawnPokemon habitatPool rand fuel).drop
        (match habitatPool with | .ok pool => pool.length | .error _ => 0),
      1 ≤ id ∧ id ≤ 1025 := by
  cases habitatPool with
  | error e =>
    refine ⟨collectRandomIds_length_le rand 10 fuel 0 [] (by simp), ?_⟩
    intro id hid
    rw [List.drop_zero] at hid
    exact collectRandomIds_mem_bounds rand 10 fuel 0 [] (by simp) id hid
  | ok pool =>
    constructor
    · simp only [spawnPokemon]
      split_ifs <;> (rw [List.length_take]; exact min_le_left _ _)
    · intro id hid
      simp only [spawnPokemon] at hid
      split_ifs at hid with hlen
      · rw [List.drop_take, List.drop_left] at hid
        exact collectRandomIds_mem_bounds rand (MAX_POKEMON - pool.length)
          fuel 0 [] (by simp) id (List.take_subset _ _ hid)
      · rw [List.drop_take, List.drop_length] at hid
        simp at hid

/-- Witness for C8: a three-creature pool topped up from the draw stream
`i % 1025`; the list stays within 10 and the fourth element (the first
filler id) is a valid id. -/
theorem spawnPokemon_bounds_witness :
    (spawnPokemon (.ok [1, 2, 3])
      (fun i => ⟨i % 1025, Nat.mod_lt _ (by decide)⟩) 20).length ≤ 10 ∧
    1 ≤ 4 ∧ 4 ≤ 1025 :=
  ⟨(spawnPokemon_bounds (.ok [1, 2, 3])
      (fun i => ⟨i % 1025, Nat.mod_lt _ (by decide)⟩) 20).1,
   (spawnPokemon_bounds (.ok [1, 2, 3])
      (fun i => ⟨i % 1025, Nat.mod_lt _ (by decide)⟩) 20).2 4 (by decide)⟩

/-! ### Offline cache service (the AsyncStorage-backed cache module)

`AsyncStorage` is modelled as an association list from keys to values; the
service's functions are embedded over it.  `getItem` returns the first
binding of a key (AsyncStorage keys are unique). -/

/-- The AsyncStorage key-value store. -/
abbrev Store := List (String × String)

/-- `AsyncStorage.getAllKeys()`. -/
def getAllKeys (st : Store) : List String := st.map (fun e => e.1)

/-- `AsyncStorage.getItem(k)` (`none` models `null`): the value bound to
the first occurrence of `k`. -/
def getItem : Store → String → Option String
  | [], _ => none
  | e :: es, k => if e.1 = k then some e.2 else getItem es k

/-- `AsyncStorage.multiRemove(ks)`. -/
def multiRemove (st : Store) (ks : List String) : Store :=
  st.filter (fun e => !ks.contains e.1)

/-- `AsyncStorage.setItem(k, v)` (insert the binding of `k`, overwriting
an existing one). -/
def setItem : Store → String → String → Store
  | [], k, v => [(k, v)]
  | e :: es, k, v => if e.1 = k then (k, v) :: es else e :: setItem es k v

/-- `AsyncStorage.multiSet(pairs)`. -/
def multiSet (st : Store) (pairs : List (String × String)) : Store :=
  pairs.foldl (fun s p => setItem s p.1 p.2) st

/-- `CACHE_PREFIX`. -/
def cachePrefixVal : String := "pokemon_cache_"

/-- `CACHE_EXPIRY_PREFIX`. -/
def cacheExpiryPrefixVal : String := "pokemon_cache_expiry_"

/-- `CACHE_DURATION` — 24 hours in milliseconds. -/
def CACHE_DURATION : Nat := 24 * 60 * 60 * 1000

/-- `MAX_ITEM_SIZE` — 500 KB per item. -/
def MAX_ITEM_SIZE : Nat := 500 * 1024

/-- `getCacheKey(resource, identifier?)`; the template is guarded by
JavaScript truthiness, so an empty-string identifier behaves like an
absent one. -/
def getCacheKey (resource : String) (identifier : Option String) : String :=
  match identifier with
  | some id =>
    if id = "" then cachePrefixVal ++ resource
    else cachePrefixVal ++ resource ++ "_" ++ id
  | none => cachePrefixVal ++ resource

/-- `getExpiryKey(resource, identifier?)`, same shape with the expiry
key head. -/
def getExpiryKey (resource : String) (identifier : Option String) : String :=
  match identifier with
  | some id =>
    if id = "" then cacheExpiryPrefixVal ++ resource
    else cacheExpiryPrefixVal ++ resource ++ "_" ++ id
  | none => cacheExpiryPrefixVal ++ resource

/-- JavaScript `parseInt(s, 10)` on the values this cache stores: an
optional sign followed by the longest digit run; `none` models `NaN` (no
digits found).  (Leading whitespace, which `parseInt` would also skip,
never occurs in stored expiry values.) -/
def parseIntJS (s : String) : Option Int :=
  let signRest : Int × List Char :=
    match s.data with
    | '-' :: cs => (-1, cs)
    | '+' :: cs => (1, cs)
    | cs => (1, cs)
  let ds := signRest.2.takeWhile Char.isDigit
  if ds.isEmpty then none
  else
    some (signRest.1 *
      ((ds.foldl (fun n c => n * 10 + (c.toNat - '0'.toNat)) (0 : Nat) : Nat) : Int))

/-- `isCacheValid` (cache module lines 38-53): false when the expiry entry
is missing or falsy, unparseable (`Date.now() < NaN` is false), or not
strictly in the future. -/
def isCacheValid (st : Store) (resource : String) (identifier : Option String)
    (now : Int) : Bool :=
  match getItem st (getExpiryKey resource identifier) with
  | none => false
  | some s =>
    if s = "" then false
    else
      match parseIntJS s with
      | none => false
      | some expiry => decide (now < expiry)

/-- Stand-in for `JSON.stringify({ data, timestamp })` — an injective
encoding whose exact wire shape none of the claims depend on. -/
def encodeCached (data : String) (timestamp : Nat) : String :=
  toString timestamp ++ ":" ++ data

/-- Stand-in for `JSON.parse` of a cached record, recovering the `data`
field; `none` models a parse error (caught and turned into `null`). -/
def decodeCached (s : String) : Option String :=
  let hd := s.data.takeWhile (fun c => c ≠ ':')
  if hd.length = s.data.length then none
  else some ⟨s.data.drop (hd.length + 1)⟩

/-- `getCachedData` (lines 58-81): `null` unless the expiry entry is
present, parseable and strictly in the future, and the cache entry itself
is present and parseable. -/
def getCachedData (st : Store) (resource : String) (identifier : Option String)
    (now : Int) : Option String :=
  if isCacheValid st resource identifier now then
    match getItem st (getCacheKey resource identifier) with
    | none => none
    | some cachedStr =>
      if cachedStr = "" then none
      else decodeCached cachedStr
  else none

/-- One cache entry as assembled by the eviction scan (lines 95-134). -/
structure EvictEntry where
  cacheKey : String
  expiryKey : String
  expiry : Int
deriving DecidableEq, Repr

/-- `cacheKey.replace(CACHE_PREFIX, '')` for a key that starts with the
cache head string (every key the scan feeds in does, so the first
occurrence replaced is the leading one). -/
def stripCacheHead (k : String) : String :=
  ⟨k.data.drop cachePrefixVal.length⟩

/-- JavaScript `str.split('_')` on character lists. -/
def splitUS : List Char → List (List Char)
  | [] => [[]]
  | c :: cs =>
    match splitUS cs with
    | [] => [[]]
    | p :: ps => if c = '_' then [] :: p :: ps else (c :: p) :: ps

/-- Lines 98-113: recover resource and identifier from a cache key and
rebuild the matching expiry key.  With more than one `_`-part the tail
parts rejoined are the identifier, otherwise there is none; an
empty-string identifier is falsy and is dropped by `getExpiryKey`. -/
def reconstructedExpiryKey (cacheKey : String) : String :=
  let parts := splitUS (stripCacheHead cacheKey).data
  match parts with
  | [] => getExpiryKey "" none
  | [r] => getExpiryKey ⟨r⟩ none
  | r :: rest =>
    getExpiryKey ⟨r⟩
      (some (String.intercalate "_" (rest.map (fun p => (⟨p⟩ : String)))))

/-- The scan of lines 88-134: every stored key starting with the cache
head (note: expiry keys themselves start with it too and are kept by the
source's filter) whose reconstructed expiry key exists with a truthy,
parseable value becomes an entry. -/
def evictCandidates (st : Store) : List EvictEntry :=
  let keys := getAllKeys st
  let cacheKeys := keys.filter (fun k => isPrefixL cachePrefixVal.data k.data)
  let expiryKeys := keys.filter (fun k => isPrefixL cacheExpiryPrefixVal.data k.data)
  cacheKeys.filterMap (fun ck =>
    let ek := reconstructedExpiryKey ck
    if expiryKeys.contains ek then
      match getItem st ek with
      | none => none
      | some s =>
        if s = "" then none
        else
          match parseIntJS s with
          | none => none
          | some expiry => some ⟨ck, ek, expiry⟩
    else none)

/-- `entries.sort((a, b) => a.expiry - b.expiry)`: a stable ascending sort;
`insertionSort` is stable, so it computes the same list as the JavaScript
engine's stable sort. -/
def sortedByExpiry (entries : List EvictEntry) : List EvictEntry :=
  entries.insertionSort (fun a b => a.expiry ≤ b.expiry)

/-- `Math.max(1, Math.ceil(entries.length * 0.25))`; `n * 0.25` is exact in
floating point and `Math.ceil(n / 4) = (n + 3) / 4` in natural division. -/
def toRemoveCount (n : Nat) : Nat := max 1 ((n + 3) / 4)

/-- `evictOldCacheEntries` (lines 86-161): remove the first `toRemove`
sorted entries — the loop also stops at `entries.length` — together with
their expiry keys; removal in batches of 50 equals one combined removal. -/
def evictOldCacheEntries (st : Store) : Store :=
  let entries := evictCandidates st
  let victims := (sortedByExpiry entries).take (toRemoveCount entries.length)
  multiRemove st (victims.flatMap (fun e => [e.cacheKey, e.expiryKey]))

/-- `setCachedData` (lines 204-292), for a string payload (stringify cannot
fail) within the item-size limit path.  `storageFull` says whether the
first `multiSet` throws a storage-full error; then old entries are evicted
and the same two pairs are written again.  (The deeper give-up fallbacks
after a second failure never modify the store and are not modelled.) -/
def setCachedData (st : Store) (resource : String) (identifier : Option String)
    (data : String) (now : Nat) (storageFull : Bool) : Store :=
  let cacheKey := getCacheKey resource identifier
  let expiryKey := getExpiryKey resource identifier
  let jsonString := encodeCached data now
  if MAX_ITEM_SIZE < jsonString.length then st
  else
    let expiry := now + CACHE_DURATION
    let pairs := [(cacheKey, jsonString), (expiryKey, toString expiry)]
    if storageFull then multiSet (evictOldCacheEntries st) pairs
    else multiSet st pairs

instance : IsTotal EvictEntry (fun a b => a.expiry ≤ b.expiry) :=
  ⟨fun a b => Int.le_total a.expiry b.expiry⟩

instance : IsTrans EvictEntry (fun a b => a.expiry ≤ b.expiry) :=
  ⟨fun _ _ _ hab hbc => le_trans hab hbc⟩

/-- Writing a key and reading it back yields the written value. -/
lemma getItem_setItem_self (st : Store) (k v : String) :
    getItem (setItem st k v) k = some v := by
  induction st with
  | nil => simp [getItem, setItem]
  | cons e es ih =>
    by_cases he : e.1 = k
    · simp [getItem, setItem, he]
    · simpa [getItem, setItem, he] using ih

/-- Writing one key leaves every other key's value unchanged. -/
lemma getItem_setItem_ne (st : Store) (k v q : String) (h : q ≠ k) :
    getItem (setItem st k v) q = getItem st q := by
  have hkq : ¬ k = q := fun hkq => h hkq.symm
  induction st with
  | nil => simp [getItem, setItem, hkq]
  | cons e es ih =>
    by_cases he : e.1 = k
    · have hq : ¬ e.1 = q := by rw [he]; exact hkq
      simp [getItem, setItem, he, hq, hkq]
    · by_cases hq : e.1 = q
      · simp [getItem, setItem, he, hq, h]
      · simpa [getItem, setItem, he, hq] using ih

/-- A call's expiry key always differs from its cache key (it is seven
characters longer). -/
lemma expiryKey_ne_cacheKey (res : String) (id : Option String) :
    getExpiryKey res id ≠ getCacheKey res id := by
  have h21 : ("pokemon_cache_expiry_" : String).length = 21 := by decide
  have h14 : ("pokemon_cache_" : String).length = 14 := by decide
  intro h
  have hlen := congrArg String.length h
  cases id with
  | none =>
    simp only [getExpiryKey, getCacheKey, cachePrefixVal, cacheExpiryPrefixVal,
      String.length_append, h21, h14] at hlen
    omega
  | some i =>
    by_cases hi : i = ""
    · simp only [getExpiryKey, getCacheKey, cachePrefixVal, cacheExpiryPrefixVal,
        hi, if_pos, String.length_append, h21, h14] at hlen
      omega
    · simp only [getExpiryKey, getCacheKey, cachePrefixVal, cacheExpiryPrefixVal,
        if_neg hi, String.length_append, h21, h14] at hlen
      omega

/-- C9: (1) `getCachedData` returns `null` for every entry whose stored
expiry timestamp is not strictly in the future; (2) when eviction runs on a
store with `n ≥ 1` parseable cache entries it removes exactly the
`max(1, ceil(25% of n))` of them with the smallest expiry timestamps (with
their expiry keys); (3) a storage-full `setCachedData` retries the same
two-pair write against the evicted store, and the new entry is present
afterwards. -/
theorem cache_expiry_and_eviction :
    (∀ (st : Store) (res : String) (id : Option String) (now : Int)
        (s : String) (t : Int),
      getItem st (getExpiryKey res id) = some s →
      parseIntJS s = some t → ¬ now < t →
      getCachedData st res id now = none) ∧
    (∀ st : Store, 1 ≤ (evictCandidates st).length →
      ∃ victims : List EvictEntry,
        victims.length = max 1 (((evictCandidates st).length + 3) / 4) ∧
        (∀ v ∈ victims, v ∈ evictCandidates st) ∧
        (∀ v ∈ victims, ∀ e ∈ evictCandidates st, e ∉ victims →
          v.expiry ≤ e.expiry) ∧
        evictOldCacheEntries st =
          multiRemove st (victims.flatMap (fun e => [e.cacheKey, e.expiryKey]))) ∧
    (∀ (st : Store) (res : String) (id : Option String) (data : String) (now : Nat),
      (encodeCached data now).length ≤ MAX_ITEM_SIZE →
      setCachedData st res id data now true =
        multiSet (evictOldCacheEntries st)
          [(getCacheKey res id, encodeCached data now),
           (getExpiryKey res id, toString (now + CACHE_DURATION))] ∧
      getItem (setCachedData st res id data now true) (getCacheKey res id) =
        some (encodeCached data now)) := by
  refine ⟨?_, ?_, ?_⟩
  · intro st res id now s t hs hp hlt
    unfold getCachedData isCacheValid
    rw [hs]
    by_cases he : s = ""
    · simp [he]
    · simp [he, hp, hlt]
  · intro st hn
    have hperm : List.Perm (sortedByExpiry (evictCandidates st))
        (evictCandidates st) :=
      List.perm_insertionSort _ (evictCandidates st)
    have hsorted : (sortedByExpiry (evictCandidates st)).Sorted
        (fun a b => a.expiry ≤ b.expiry) :=
      List.sorted_insertionSort _ (evictCandidates st)
    refine ⟨(sortedByExpiry (evictCandidates st)).take
      (toRemoveCount (evictCandidates st).length), ?_, ?_, ?_, rfl⟩
    · rw [List.length_take, hperm.length_eq]
      unfold toRemoveCount
      omega
    · intro v hv
      exact hperm.subset (List.take_subset _ _ hv)
    · intro v hv e he hne
      have he2 : e ∈ sortedByExpiry (evictCandidates st) := hperm.symm.subset he
      rw [← List.take_append_drop (toRemoveCount (evictCandidates st).length)
        (sortedByExpiry (evictCandidates st))] at he2
      rcases List.mem_append.mp he2 with h | h
      · exact absurd h hne
      · exact hsorted.rel_of_mem_take_of_mem_drop hv h
  · intro st res id data now hsz
    have hne : getCacheKey res id ≠ getExpiryKey res id :=
      fun h => expiryKey_ne_cacheKey res id h.symm
    constructor
    · unfold setCachedData
      rw [if_neg (Nat.not_lt.mpr hsz), if_pos rfl]
    · unfold setCachedData
      rw [if_neg (Nat.not_lt.mpr hsz), if_pos rfl]
      show getItem (setItem (setItem _ _ _) _ _) _ = _
      rw [getItem_setItem_ne _ _ _ _ hne, getItem_setItem_self]

/-- Witness for C9: a concrete store with one parseable entry, expired at
the probe time; eviction on it; and a storage-full write. -/
theorem cache_expiry_and_eviction_witness :
    getCachedData [("pokemon_cache_expiry_p", "100"), ("pokemon_cache_p", "7:x")]
      "p" none 100 = none ∧
    (∃ victims : List EvictEntry,
      victims.length = max 1
        (((evictCandidates [("pokemon_cache_expiry_p", "100"),
            ("pokemon_cache_p", "7:x")]).length + 3) / 4) ∧
      (∀ v ∈ victims, v ∈ evictCandidates [("pokemon_cache_expiry_p", "100"),
        ("pokemon_cache_p", "7:x")]) ∧
      (∀ v ∈ victims, ∀ e ∈ evictCandidates [("pokemon_cache_expiry_p", "100"),
        ("pokemon_cache_p", "7:x")], e ∉ victims → v.expiry ≤ e.expiry) ∧
      evictOldCacheEntries [("pokemon_cache_expiry_p", "100"),
        ("pokemon_cache_p", "7:x")] =
        multiRemove [("pokemon_cache_expiry_p", "100"), ("pokemon_cache_p", "7:x")]
          (victims.flatMap (fun e => [e.cacheKey, e.expiryKey]))) ∧
    getItem (setCachedData [] "p" none "x" 0 true) (getCacheKey "p" none) =
      some (encodeCached "x" 0) :=
  ⟨cache_expiry_and_eviction.1 [("pokemon_cache_expiry_p", "100"),
      ("pokemon_cache_p", "7:x")] "p" none 100 "100" 100 (by decide) (by decide)
      (by decide),
   cache_expiry_and_eviction.2.1 [("pokemon_cache_expiry_p", "100"),
      ("pokemon_cache_p", "7:x")] (by decide),
   (cache_expiry_and_eviction.2.2 [] "p" none "x" 0 (by decide)).2⟩

/-! ### AR catch mini-game (PokemonCatchScreen.tsx) -/

/-- `MAX_ATTEMPTS` (PokemonCatchScreen.tsx line 34). -/
def MAX_ATTEMPTS : Nat := 5

/-- The component state relevant to the mini-game: the `attempts` and
`throwing` hooks, plus whether the encounter has ended (`handleCatch` on a
success, or the "Pokemon fled" alert's navigation away). -/
structure CatchState where
  attempts : Nat
  throwing : Bool
  ended : Bool
deriving DecidableEq, Repr

/-- Initial hook values `useState(0)` / `useState(false)`. -/
def initialCatchState : CatchState := ⟨0, false, false⟩

/-- One call of `throwPokeball` together with its animation-completion
callback (lines 161-247): a no-op while a throw is in flight or once the
counter has reached `MAX_ATTEMPTS`; otherwise the counter is incremented
and the 75%-roll outcome `caught` selects between `handleCatch`, the
"Pokemon fled" reset, and a plain retry.  The callback closes over the
pre-increment `attempts`, hence the `s.attempts + 1` comparisons. -/
def throwPokeball (s : CatchState) (caught : Bool) : CatchState :=
  if s.throwing || MAX_ATTEMPTS ≤ s.attempts then s
  else if caught then
    { attempts := s.attempts + 1, throwing := true, ended := true }
  else if MAX_ATTEMPTS ≤ s.attempts + 1 then
    { attempts := 0, throwing := false, ended := true }
  else
    { attempts := s.attempts + 1, throwing := false, ended := false }

/-- Replay a sequence of throw outcomes from the initial state. -/
def runThrows (outcomes : List Bool) : CatchState :=
  outcomes.foldl throwPokeball initialCatchState

/-- A single throw keeps the attempt counter at or below `MAX_ATTEMPTS`. -/
lemma throwPokeball_attempts_le (s : CatchState) (c : Bool)
    (h : s.attempts ≤ MAX_ATTEMPTS) :
    (throwPokeball s c).attempts ≤ MAX_ATTEMPTS := by
  unfold throwPokeball
  split_ifs with h1 h2 h3 <;> simp_all <;> omega

/-- The bound holds along every replay from any in-bound state. -/
lemma foldl_throwPokeball_attempts_le (outcomes : List Bool) :
    ∀ s : CatchState, s.attempts ≤ MAX_ATTEMPTS →
      (outcomes.foldl throwPokeball s).attempts ≤ MAX_ATTEMPTS := by
  induction outcomes with
  | nil => intro s h; exact h
  | cons c cs ih =>
    intro s h
    exact ih _ (throwPokeball_attempts_le s c h)

/-- C10: along every sequence of outcomes the attempt counter never exceeds
`MAX_ATTEMPTS = 5`; `throwPokeball` is a no-op when a throw is in flight or
the counter has reached 5; a non-terminal throw increments the counter by
exactly one; and the fifth failed throw ends the encounter with the counter
reset to 0. -/
theorem catch_attempts_invariant :
    (∀ outcomes : List Bool, (runThrows outcomes).attempts ≤ MAX_ATTEMPTS) ∧
    (∀ (s : CatchState) (caught : Bool),
      (s.throwing = true ∨ MAX_ATTEMPTS ≤ s.attempts) →
      throwPokeball s caught = s) ∧
    (∀ (s : CatchState) (caught : Bool), s.throwing = false →
      s.attempts < MAX_ATTEMPTS →
      (caught = true ∨ s.attempts + 1 < MAX_ATTEMPTS) →
      (throwPokeball s caught).attempts = s.attempts + 1) ∧
    (∀ s : CatchState, s.throwing = false → s.attempts = MAX_ATTEMPTS - 1 →
      throwPokeball s false = ⟨0, false, true⟩) := by
  refine ⟨?_, ?_, ?_, ?_⟩
  · intro outcomes
    exact foldl_throwPokeball_attempts_le outcomes initialCatchState (by simp [initialCatchState])
  · intro s caught h
    unfold throwPokeball
    rcases h with h | h <;> simp [h]
  · intro s caught hthr hlt hc
    unfold throwPokeball
    rcases hc with hc | hc
    · simp [hthr, Nat.not_le_of_lt hlt, hc]
    · have : ¬ MAX_ATTEMPTS ≤ s.attempts + 1 := Nat.not_le_of_lt hc
      cases caught <;> simp [hthr, Nat.not_le_of_lt hlt, this]
  · intro s hthr hatt
    unfold throwPokeball
    simp [hthr, hatt, MAX_ATTEMPTS]

/-- Witness for C10: concrete replays and states exercising each conjunct. -/
theorem catch_attempts_invariant_witness :
    (runThrows [false, false, false]).attempts ≤ MAX_ATTEMPTS ∧
    throwPokeball ⟨3, true, false⟩ true = ⟨3, true, false⟩ ∧
    (throwPokeball ⟨1, false, false⟩ false).attempts = 2 ∧
    throwPokeball ⟨4, false, false⟩ false = ⟨0, false, true⟩ :=
  ⟨catch_attempts_invariant.1 [false, false, false],
   catch_attempts_invariant.2.1 ⟨3, true, false⟩ true (Or.inl rfl),
   catch_attempts_invariant.2.2.1 ⟨1, false, false⟩ false rfl (by decide)
     (Or.inr (by decide)),
   catch_attempts_invariant.2.2.2 ⟨4, false, false⟩ rfl rfl⟩

end PokeExplore
